import Mathlib

/-!
Verification development for the EliasDB core: the Pratt-style EQL parser
(translated from the Go source file `parser.go` of package `parser`) and the
paged storage subsystem exercised by `TestFreePhysicalSlotManagerScale`
(package `paging`).

The parser's AST construction, the token-to-prototype table, the main
parse loop, all null/left denotations and the helper functions are
translated from the source.  The lexer and the node-name string constants
live in files of the repository that are not part of the excerpt; they are
modelled from the specification where needed and marked as such.
-/

namespace EliasDB

/-- Lexer token identifiers.  The set of identifiers is the one referenced by
the token-to-prototype table in the source (`astNodeMap`), together with
`TokenError` (lexer error token), `TokenGeneral` (minted by `ASTFromPlain`)
and the parser-internal `TokenSHOWTERM`. -/
inductive LexTokenID where
  | TokenError | TokenEOF | TokenGeneral
  | TokenVALUE | TokenNODEKIND | TokenTRUE | TokenFALSE | TokenNULL
  | TokenAT | TokenORDERING | TokenFILTERING | TokenNULLTRAVERSAL
  | TokenCOMMA | TokenGROUP | TokenEND | TokenAS | TokenFORMAT
  | TokenGET | TokenLOOKUP | TokenFROM | TokenWHERE
  | TokenUNIQUE | TokenUNIQUECOUNT | TokenISNOTNULL | TokenASCENDING
  | TokenDESCENDING
  | TokenTRAVERSE | TokenPRIMARY | TokenSHOW | TokenSHOWTERM | TokenWITH
  | TokenLIST
  | TokenNOT | TokenOR | TokenAND
  | TokenGEQ | TokenLEQ | TokenNEQ | TokenEQ | TokenGT | TokenLT
  | TokenLIKE | TokenIN | TokenCONTAINS | TokenBEGINSWITH | TokenENDSWITH
  | TokenCONTAINSNOT | TokenNOTIN
  | TokenPLUS | TokenMINUS | TokenTIMES | TokenDIV | TokenMODINT
  | TokenDIVINT
  | TokenLPAREN | TokenRPAREN | TokenLBRACK | TokenRBRACK
  deriving DecidableEq, Repr

/-- A lexer token: `{ID, Pos, Val, Lline, Lpos}` as in the Go `LexToken`
struct (the parser treats the stream as opaque tokens with these fields). -/
structure LexToken where
  id : LexTokenID
  pos : Nat
  val : String
  lline : Nat
  lpos : Nat
  deriving DecidableEq, Repr

/-- The zero-valued token the Go code receives when the token channel is
closed (unexpected end of input); its ID is the zero token id `TokenError`. -/
def emptyToken : LexToken := ⟨.TokenError, 0, "", 0, 0⟩

/-- Parser errors of the source (`ErrUnexpectedEnd`, `ErrLexicalError`,
`ErrUnknownToken`, `ErrImpossibleNullDenotation`,
`ErrImpossibleLeftDenotation`, `ErrUnexpectedToken`), each carrying the
offending token as the Go `newParserError` does.  `outOfFuel` is an artifact
of the shallow embedding (the Go recursion is modelled with explicit fuel)
and is never produced when enough fuel is supplied. -/
inductive ParseErr where
  | unexpectedEnd (t : LexToken)
  | lexicalError (t : LexToken)
  | unknownToken (t : LexToken)
  | impossibleNullDenot (t : LexToken)
  | impossibleLeftDenot (t : LexToken)
  | unexpectedToken (t : LexToken)
  | outOfFuel
  deriving DecidableEq, Repr

/-- The kind of a parser error, without the attached token. -/
inductive ErrKind where
  | unexpectedEnd | lexicalError | unknownToken
  | impossibleNullDenot | impossibleLeftDenot | unexpectedToken | outOfFuel
  deriving DecidableEq, Repr

/-- Project a parser error to its kind. -/
def ParseErr.kind : ParseErr → ErrKind
  | .unexpectedEnd _ => .unexpectedEnd
  | .lexicalError _ => .lexicalError
  | .unknownToken _ => .unknownToken
  | .impossibleNullDenot _ => .impossibleNullDenot
  | .impossibleLeftDenot _ => .impossibleLeftDenot
  | .unexpectedToken _ => .unexpectedToken
  | .outOfFuel => .outOfFuel

/-- The null-denotation handlers of the source, as a closed variant type:
`term` = `ndTerm`, `inner` = `ndInner`, `prefixOp` = `ndPrefix`,
`get` = `ndGet`, `lookup` = `ndLookup`, `fromGroup` = `ndFrom`,
`traverse` = `ndTraverse`, `func` = `ndFunc`, `showClause` = `ndShow`,
`withClause` = `ndWith`, `withFunc` = `ndWithFunc`, `list` = `ndList`. -/
inductive NullDenot where
  | term | inner | prefixOp | get | lookup | fromGroup | traverse
  | func | showClause | withClause | withFunc | list
  deriving DecidableEq, Repr

/-- A prototype entry of the token-to-prototype table: node name, binding
power, optional null denotation and whether the (sole) left denotation
`ldInfix` is attached. -/
structure ASTProto where
  name : String
  binding : Int
  nd : Option NullDenot
  ld : Bool
  deriving DecidableEq, Repr

/-- Modelled from the spec: the node-name string constants (`NodeVALUE`,
`NodeGET`, ...) are defined in a source file of the parser package that is
not part of the excerpt; the spec lists them as the symbolic names VALUE,
NODEKIND, TRUE, ..., EOF, which are used here as the strings. -/
def NodeEOF : String := "EOF"
def NodeVALUE : String := "VALUE"
def NodeTRUE : String := "TRUE"
def NodeFALSE : String := "FALSE"
def NodeNULL : String := "NULL"
def NodeFUNC : String := "FUNC"
def NodeORDERING : String := "ORDERING"
def NodeFILTERING : String := "FILTERING"
def NodeNULLTRAVERSAL : String := "NULLTRAVERSAL"
def NodeCOMMA : String := "COMMA"
def NodeGROUP : String := "GROUP"
def NodeEND : String := "END"
def NodeAS : String := "AS"
def NodeFORMAT : String := "FORMAT"
def NodeGET : String := "GET"
def NodeLOOKUP : String := "LOOKUP"
def NodeFROM : String := "FROM"
def NodeWHERE : String := "WHERE"
def NodeUNIQUE : String := "UNIQUE"
def NodeUNIQUECOUNT : String := "UNIQUECOUNT"
def NodeISNOTNULL : String := "ISNOTNULL"
def NodeASCENDING : String := "ASCENDING"
def NodeDESCENDING : String := "DESCENDING"
def NodeTRAVERSE : String := "TRAVERSE"
def NodePRIMARY : String := "PRIMARY"
def NodeSHOW : String := "SHOW"
def NodeSHOWTERM : String := "SHOWTERM"
def NodeWITH : String := "WITH"
def NodeLIST : String := "LIST"
def NodeNOT : String := "NOT"
def NodeOR : String := "OR"
def NodeAND : String := "AND"
def NodeGEQ : String := "GEQ"
def NodeLEQ : String := "LEQ"
def NodeNEQ : String := "NEQ"
def NodeEQ : String := "EQ"
def NodeGT : String := "GT"
def NodeLT : String := "LT"
def NodeLIKE : String := "LIKE"
def NodeIN : String := "IN"
def NodeCONTAINS : String := "CONTAINS"
def NodeBEGINSWITH : String := "BEGINSWITH"
def NodeENDSWITH : String := "ENDSWITH"
def NodeCONTAINSNOT : String := "CONTAINSNOT"
def NodeNOTIN : String := "NOTIN"
def NodePLUS : String := "PLUS"
def NodeMINUS : String := "MINUS"
def NodeTIMES : String := "TIMES"
def NodeDIV : String := "DIV"
def NodeMODINT : String := "MODINT"
def NodeDIVINT : String := "DIVINT"
def NodeLPAREN : String := "LPAREN"
def NodeRPAREN : String := "RPAREN"
def NodeLBRACK : String := "LBRACK"
def NodeRBRACK : String := "RBRACK"

/-- The token-to-prototype table, translated entry by entry from the
`astNodeMap` initialisation in the source.  `TokenError` and `TokenGeneral`
have no entry in the Go map, hence `none`. -/
def astNodeMap : LexTokenID → Option ASTProto
  | .TokenError => none
  | .TokenGeneral => none
  | .TokenEOF => some ⟨NodeEOF, 0, some .term, false⟩
  | .TokenVALUE => some ⟨NodeVALUE, 0, some .term, false⟩
  | .TokenNODEKIND => some ⟨NodeVALUE, 0, some .term, false⟩
  | .TokenTRUE => some ⟨NodeTRUE, 0, some .term, false⟩
  | .TokenFALSE => some ⟨NodeFALSE, 0, some .term, false⟩
  | .TokenNULL => some ⟨NodeNULL, 0, some .term, false⟩
  | .TokenAT => some ⟨NodeFUNC, 0, some .func, false⟩
  | .TokenORDERING => some ⟨NodeORDERING, 0, some .withFunc, false⟩
  | .TokenFILTERING => some ⟨NodeFILTERING, 0, some .withFunc, false⟩
  | .TokenNULLTRAVERSAL => some ⟨NodeNULLTRAVERSAL, 0, some .withFunc, false⟩
  | .TokenCOMMA => some ⟨NodeCOMMA, 0, none, false⟩
  | .TokenGROUP => some ⟨NodeGROUP, 0, none, false⟩
  | .TokenEND => some ⟨NodeEND, 0, none, false⟩
  | .TokenAS => some ⟨NodeAS, 0, none, false⟩
  | .TokenFORMAT => some ⟨NodeFORMAT, 0, none, false⟩
  | .TokenGET => some ⟨NodeGET, 0, some .get, false⟩
  | .TokenLOOKUP => some ⟨NodeLOOKUP, 0, some .lookup, false⟩
  | .TokenFROM => some ⟨NodeFROM, 0, some .fromGroup, false⟩
  | .TokenWHERE => some ⟨NodeWHERE, 0, some .prefixOp, false⟩
  | .TokenUNIQUE => some ⟨NodeUNIQUE, 0, some .prefixOp, false⟩
  | .TokenUNIQUECOUNT => some ⟨NodeUNIQUECOUNT, 0, some .prefixOp, false⟩
  | .TokenISNOTNULL => some ⟨NodeISNOTNULL, 0, some .prefixOp, false⟩
  | .TokenASCENDING => some ⟨NodeASCENDING, 0, some .prefixOp, false⟩
  | .TokenDESCENDING => some ⟨NodeDESCENDING, 0, some .prefixOp, false⟩
  | .TokenTRAVERSE => some ⟨NodeTRAVERSE, 0, some .traverse, false⟩
  | .TokenPRIMARY => some ⟨NodePRIMARY, 0, some .prefixOp, false⟩
  | .TokenSHOW => some ⟨NodeSHOW, 0, some .showClause, false⟩
  | .TokenSHOWTERM => some ⟨NodeSHOWTERM, 0, some .showClause, false⟩
  | .TokenWITH => some ⟨NodeWITH, 0, some .withClause, false⟩
  | .TokenLIST => some ⟨NodeLIST, 0, none, false⟩
  | .TokenNOT => some ⟨NodeNOT, 20, some .prefixOp, false⟩
  | .TokenOR => some ⟨NodeOR, 30, none, true⟩
  | .TokenAND => some ⟨NodeAND, 40, none, true⟩
  | .TokenGEQ => some ⟨NodeGEQ, 60, none, true⟩
  | .TokenLEQ => some ⟨NodeLEQ, 60, none, true⟩
  | .TokenNEQ => some ⟨NodeNEQ, 60, none, true⟩
  | .TokenEQ => some ⟨NodeEQ, 60, none, true⟩
  | .TokenGT => some ⟨NodeGT, 60, none, true⟩
  | .TokenLT => some ⟨NodeLT, 60, none, true⟩
  | .TokenLIKE => some ⟨NodeLIKE, 60, none, true⟩
  | .TokenIN => some ⟨NodeIN, 60, none, true⟩
  | .TokenCONTAINS => some ⟨NodeCONTAINS, 60, none, true⟩
  | .TokenBEGINSWITH => some ⟨NodeBEGINSWITH, 60, none, true⟩
  | .TokenENDSWITH => some ⟨NodeENDSWITH, 60, none, true⟩
  | .TokenCONTAINSNOT => some ⟨NodeCONTAINSNOT, 60, none, true⟩
  | .TokenNOTIN => some ⟨NodeNOTIN, 60, none, true⟩
  | .TokenPLUS => some ⟨NodePLUS, 110, some .prefixOp, true⟩
  | .TokenMINUS => some ⟨NodeMINUS, 110, some .prefixOp, true⟩
  | .TokenTIMES => some ⟨NodeTIMES, 120, none, true⟩
  | .TokenDIV => some ⟨NodeDIV, 120, none, true⟩
  | .TokenMODINT => some ⟨NodeMODINT, 120, none, true⟩
  | .TokenDIVINT => some ⟨NodeDIVINT, 120, none, true⟩
  | .TokenLPAREN => some ⟨NodeLPAREN, 150, some .inner, false⟩
  | .TokenRPAREN => some ⟨NodeRPAREN, 0, none, false⟩
  | .TokenLBRACK => some ⟨NodeLBRACK, 150, some .list, false⟩
  | .TokenRBRACK => some ⟨NodeRBRACK, 0, none, false⟩

/-- An AST node, mirroring the fields of the Go `ASTNode` struct: name,
lexer token, children, binding power and the two denotation slots (the
`Runtime` field is always nil for `Parse`, which passes no runtime
provider, and is omitted). -/
inductive ASTNode where
  | mk (name : String) (token : LexToken) (children : List ASTNode)
       (binding : Int) (ndTag : Option NullDenot) (ldTag : Bool)

/-- The node's symbolic name. -/
def ASTNode.name : ASTNode → String
  | .mk n _ _ _ _ _ => n

/-- The node's lexer token. -/
def ASTNode.token : ASTNode → LexToken
  | .mk _ t _ _ _ _ => t

/-- The node's children, in order. -/
def ASTNode.children : ASTNode → List ASTNode
  | .mk _ _ cs _ _ _ => cs

/-- The node's binding power. -/
def ASTNode.binding : ASTNode → Int
  | .mk _ _ _ b _ _ => b

/-- The node's null-denotation slot. -/
def ASTNode.ndTag : ASTNode → Option NullDenot
  | .mk _ _ _ _ nd _ => nd

/-- Whether the node's left-denotation slot is filled (with `ldInfix`). -/
def ASTNode.ldTag : ASTNode → Bool
  | .mk _ _ _ _ _ ld => ld

/-- Append a child, as the Go `append(self.Children, c)`. -/
def ASTNode.appendChild : ASTNode → ASTNode → ASTNode
  | .mk n t cs b nd ld, c => .mk n t (cs ++ [c]) b nd ld

/-- `instance` of the source: create a fresh node for a concrete lexer
token from a prototype (empty children; name, binding and denotations
copied from the prototype). -/
def ASTProto.instance (p : ASTProto) (t : LexToken) : ASTNode :=
  .mk p.name t [] p.binding p.nd p.ld

/-- `parser.next` of the source: pull the next token from the stream.  A
closed channel (empty list) yields `UnexpectedEnd` with the zero-valued
token; an error token yields `LexicalError`; a token without a prototype
entry yields `UnknownToken`; otherwise the prototype is instantiated. -/
def nextNode : List LexToken → Except ParseErr (ASTNode × List LexToken)
  | [] => .error (.unexpectedEnd emptyToken)
  | t :: rest =>
    if t.id = .TokenError then .error (.lexicalError t)
    else
      match astNodeMap t.id with
      | some proto => .ok (proto.instance t, rest)
      | none => .error (.unknownToken t)

/-- `skipToken` of the source: if the current node's token is one of `ids`,
advance past it; otherwise report `UnexpectedEnd` when the current token is
EOF and `UnexpectedToken` when it is any other token. -/
def skipToken (ids : List LexTokenID) (node : ASTNode)
    (toks : List LexToken) : Except ParseErr (ASTNode × List LexToken) :=
  if node.token.id ∈ ids then nextNode toks
  else if node.token.id = .TokenEOF then .error (.unexpectedEnd node.token)
  else .error (.unexpectedToken node.token)

/-- `acceptChild` of the source: advance, and if the token just passed has
id `id`, append it as a child of `self`; otherwise `UnexpectedToken`.  The
advance happens before the id check, so an exhausted stream reports
`UnexpectedEnd` from `next` first. -/
def acceptChild (self : ASTNode) (id : LexTokenID) (node : ASTNode)
    (toks : List LexToken) :
    Except ParseErr (ASTNode × ASTNode × List LexToken) :=
  match nextNode toks with
  | .error e => .error e
  | .ok (node2, toks) =>
    if node.token.id = id then .ok (self.appendChild node, node2, toks)
    else .error (.unexpectedToken node.token)

mutual

/-- `parser.run` of the source: take the current node, advance, apply its
null denotation (erroring with `ImpossibleNullDenotation` when absent),
then fold left denotations while the current token binds tighter than
`rb`.  The state `(cur, toks)` is the parser's current node and the
remaining token stream; the result carries the produced expression and the
final state.  `fuel` only bounds recursion depth. -/
def run (fuel : Nat) (rb : Int) (cur : ASTNode) (toks : List LexToken) :
    Except ParseErr (ASTNode × ASTNode × List LexToken) :=
  match fuel with
  | 0 => .error .outOfFuel
  | fuel + 1 =>
    match nextNode toks with
    | .error e => .error e
    | .ok (node, toks) =>
      match cur.ndTag with
      | none => .error (.impossibleNullDenot cur.token)
      | some tag =>
        match execNullDenot fuel tag cur node toks with
        | .error e => .error e
        | .ok (left, node, toks) => runLeft fuel rb left node toks

termination_by structural fuel

/-- The left-denotation loop of `parser.run`: while `rb` is less than the
current node's binding power, take the current node as operator, advance,
and apply its left denotation (`ldInfix`, the only one; erroring with
`ImpossibleLeftDenotation` when absent).  `ldInfix` parses a right operand
at the operator's own binding and attaches `{left, right}` in order. -/
def runLeft (fuel : Nat) (rb : Int) (left : ASTNode) (node : ASTNode)
    (toks : List LexToken) :
    Except ParseErr (ASTNode × ASTNode × List LexToken) :=
  match fuel with
  | 0 => .error .outOfFuel
  | fuel + 1 =>
    if rb < node.binding then
      match nextNode toks with
      | .error e => .error e
      | .ok (node2, toks) =>
        if node.ldTag then
          match run fuel node.binding node2 toks with
          | .error e => .error e
          | .ok (right, node3, toks) =>
            runLeft fuel rb ((node.appendChild left).appendChild right)
              node3 toks
        else .error (.impossibleLeftDenot node.token)
    else .ok (left, node, toks)

termination_by structural fuel

/-- Dispatch of the null-denotation handlers, one arm per source function
(`ndTerm`, `ndInner`, `ndPrefix`, `ndGet`, `ndLookup`, `ndFrom`,
`ndTraverse`, `ndFunc`, `ndShow`, `ndWith`, `ndWithFunc`, `ndList`). -/
def execNullDenot (fuel : Nat) (tag : NullDenot) (self node : ASTNode)
    (toks : List LexToken) :
    Except ParseErr (ASTNode × ASTNode × List LexToken) :=
  match fuel with
  | 0 => .error .outOfFuel
  | fuel + 1 =>
    match tag with
    | .term => .ok (self, node, toks)
    | .inner =>
      -- ndInner: inner expression at right binding 0, then require RPAREN;
      -- the bracket tokens are discarded.
      match run fuel 0 node toks with
      | .error e => .error e
      | .ok (exp, node, toks) =>
        match skipToken [.TokenRPAREN] node toks with
        | .error e => .error e
        | .ok (node, toks) => .ok (exp, node, toks)
    | .prefixOp =>
      -- ndPrefix: parse one operand at self.binding + 20, attach it.
      match run fuel (self.binding + 20) node toks with
      | .error e => .error e
      | .ok (val, node, toks) => .ok (self.appendChild val, node, toks)
    | .get =>
      -- ndGet: require a NODEKIND child, then absorb expressions until EOF.
      match acceptChild self .TokenNODEKIND node toks with
      | .error e => .error e
      | .ok (self, node, toks) => expLoopEOF fuel self node toks
    | .lookup =>
      -- ndLookup: NODEKIND, one VALUE, repeated `COMMA VALUE`, then absorb
      -- expressions until EOF.
      match acceptChild self .TokenNODEKIND node toks with
      | .error e => .error e
      | .ok (self, node, toks) =>
        match acceptChild self .TokenVALUE node toks with
        | .error e => .error e
        | .ok (self, node, toks) =>
          match commaValues fuel self node toks with
          | .error e => .error e
          | .ok (self, node, toks) => expLoopEOF fuel self node toks
    | .fromGroup =>
      -- ndFrom: require GROUP as a child, then require a VALUE as a child
      -- of that GROUP node (self.Children[0] in the source).
      match acceptChild self .TokenGROUP node toks with
      | .error e => .error e
      | .ok (self, node, toks) =>
        match self.children with
        | [] => .error (.unexpectedToken self.token) -- unreachable: a child was just appended
        | g :: restCh =>
          match acceptChild g .TokenVALUE node toks with
          | .error e => .error e
          | .ok (g, node, toks) =>
            .ok (.mk self.name self.token (g :: restCh) self.binding
                  self.ndTag self.ldTag, node, toks)
    | .traverse =>
      -- ndTraverse: require a VALUE (traversal spec), absorb expressions
      -- until EOF or END, and consume a trailing END if present.
      match acceptChild self .TokenVALUE node toks with
      | .error e => .error e
      | .ok (self, node, toks) =>
        match traverseLoop fuel self node toks with
        | .error e => .error e
        | .ok (self, node, toks) =>
          if node.token.id = .TokenEND then
            -- the source ignores the error of this skipToken call
            match skipToken [.TokenEND] node toks with
            | .error _ => .ok (self, node, toks)
            | .ok (node, toks) => .ok (self, node, toks)
          else .ok (self, node, toks)
    | .func =>
      -- ndFunc: require a VALUE name, an LPAREN, optionally a VALUE then
      -- repeated `COMMA VALUE`, and a closing RPAREN.
      match acceptChild self .TokenVALUE node toks with
      | .error e => .error e
      | .ok (self, node, toks) =>
        match skipToken [.TokenLPAREN] node toks with
        | .error e => .error e
        | .ok (node, toks) =>
          match
            (if node.token.id = .TokenVALUE then
              -- the source ignores the error of this acceptChild call
              match acceptChild self .TokenVALUE node toks with
              | .error _ => Except.ok (self, node, toks)
              | .ok (self, node, toks) => commaValues fuel self node toks
            else .ok (self, node, toks)) with
          | .error e => .error e
          | .ok (self, node, toks) =>
            match skipToken [.TokenRPAREN] node toks with
            | .error e => .error e
            | .ok (node, toks) => .ok (self, node, toks)
    | .showClause =>
      -- ndShow: if the current token is a VALUE or AT, read a first show
      -- term and then further comma-separated show terms.
      if node.token.id = .TokenVALUE ∨ node.token.id = .TokenAT then
        match showTerm fuel self node toks with
        | .error e => .error e
        | .ok (self, node, toks) => showCommaLoop fuel self node toks
      else .ok (self, node, toks)
    | .withClause =>
      -- ndWith: absorb expressions until EOF, allowing commas in between.
      withLoop fuel self node toks
    | .withFunc =>
      -- ndWithFunc: LPAREN, comma-separated expressions until RPAREN,
      -- then the closing RPAREN.
      match skipToken [.TokenLPAREN] node toks with
      | .error e => .error e
      | .ok (node, toks) =>
        match withFuncLoop fuel self node toks with
        | .error e => .error e
        | .ok (self, node, toks) =>
          match skipToken [.TokenRPAREN] node toks with
          | .error e => .error e
          | .ok (node, toks) => .ok (self, node, toks)
    | .list =>
      -- ndList: collect comma-separated expressions until RBRACK as the
      -- children of a synthetic LIST node carrying the LBRACK's token.
      match astNodeMap .TokenLIST with
      | none => .error (.unknownToken self.token) -- unreachable: LIST is in the table
      | some listProto =>
        match listLoop fuel (listProto.instance self.token) node toks with
        | .error e => .error e
        | .ok (st, node, toks) =>
          match skipToken [.TokenRBRACK] node toks with
          | .error e => .error e
          | .ok (node, toks) => .ok (st, node, toks)

termination_by structural fuel

/-- The `for p.node.Token.ID != TokenEOF` loop of `ndGet`/`ndLookup`:
absorb expressions parsed at right binding 0 as further children. -/
def expLoopEOF (fuel : Nat) (self node : ASTNode) (toks : List LexToken) :
    Except ParseErr (ASTNode × ASTNode × List LexToken) :=
  match fuel with
  | 0 => .error .outOfFuel
  | fuel + 1 =>
    if node.token.id = .TokenEOF then .ok (self, node, toks)
    else
      match run fuel 0 node toks with
      | .error e => .error e
      | .ok (exp, node, toks) => expLoopEOF fuel (self.appendChild exp) node toks

termination_by structural fuel

/-- The `for skipToken(p, TokenCOMMA) == nil` loop of `ndLookup`/`ndFunc`:
while a comma can be skipped, accept a further VALUE child.  A failing
skip leaves the state unchanged and ends the loop (the source discards
that error). -/
def commaValues (fuel : Nat) (self node : ASTNode) (toks : List LexToken) :
    Except ParseErr (ASTNode × ASTNode × List LexToken) :=
  match fuel with
  | 0 => .error .outOfFuel
  | fuel + 1 =>
    match skipToken [.TokenCOMMA] node toks with
    | .error _ => .ok (self, node, toks)
    | .ok (node, toks) =>
      match acceptChild self .TokenVALUE node toks with
      | .error e => .error e
      | .ok (self, node, toks) => commaValues fuel self node toks

termination_by structural fuel

/-- The loop of `ndWith`: absorb expressions until EOF, skipping a comma
after an expression when present (the source discards the skip error). -/
def withLoop (fuel : Nat) (self node : ASTNode) (toks : List LexToken) :
    Except ParseErr (ASTNode × ASTNode × List LexToken) :=
  match fuel with
  | 0 => .error .outOfFuel
  | fuel + 1 =>
    if node.token.id = .TokenEOF then .ok (self, node, toks)
    else
      match run fuel 0 node toks with
      | .error e => .error e
      | .ok (exp, node, toks) =>
        let self := self.appendChild exp
        if node.token.id = .TokenCOMMA then
          match skipToken [.TokenCOMMA] node toks with
          | .error _ => withLoop fuel self node toks
          | .ok (node, toks) => withLoop fuel self node toks
        else withLoop fuel self node toks

termination_by structural fuel

/-- The loop of `ndWithFunc`: absorb expressions until RPAREN, skipping a
comma after an expression when present. -/
def withFuncLoop (fuel : Nat) (self node : ASTNode)
    (toks : List LexToken) :
    Except ParseErr (ASTNode × ASTNode × List LexToken) :=
  match fuel with
  | 0 => .error .outOfFuel
  | fuel + 1 =>
    if node.token.id = .TokenRPAREN then .ok (self, node, toks)
    else
      match run fuel 0 node toks with
      | .error e => .error e
      | .ok (exp, node, toks) =>
        let self := self.appendChild exp
        if node.token.id = .TokenCOMMA then
          match skipToken [.TokenCOMMA] node toks with
          | .error _ => withFuncLoop fuel self node toks
          | .ok (node, toks) => withFuncLoop fuel self node toks
        else withFuncLoop fuel self node toks

termination_by structural fuel

/-- The loop of `ndList`: absorb expressions until RBRACK, skipping a
comma after an expression when present. -/
def listLoop (fuel : Nat) (st node : ASTNode) (toks : List LexToken) :
    Except ParseErr (ASTNode × ASTNode × List LexToken) :=
  match fuel with
  | 0 => .error .outOfFuel
  | fuel + 1 =>
    if node.token.id = .TokenRBRACK then .ok (st, node, toks)
    else
      match run fuel 0 node toks with
      | .error e => .error e
      | .ok (exp, node, toks) =>
        let st := st.appendChild exp
        if node.token.id = .TokenCOMMA then
          match skipToken [.TokenCOMMA] node toks with
          | .error _ => listLoop fuel st node toks
          | .ok (node, toks) => listLoop fuel st node toks
        else listLoop fuel st node toks

termination_by structural fuel

/-- The loop of `ndTraverse`: absorb expressions until EOF or END. -/
def traverseLoop (fuel : Nat) (self node : ASTNode)
    (toks : List LexToken) :
    Except ParseErr (ASTNode × ASTNode × List LexToken) :=
  match fuel with
  | 0 => .error .outOfFuel
  | fuel + 1 =>
    if node.token.id = .TokenEOF ∨ node.token.id = .TokenEND then
      .ok (self, node, toks)
    else
      match run fuel 0 node toks with
      | .error e => .error e
      | .ok (exp, node, toks) =>
        traverseLoop fuel (self.appendChild exp) node toks

termination_by structural fuel

/-- `acceptShowTerm` of `ndShow`: build a SHOWTERM node carrying the
current token; for AT parse a whole function expression as its child, for
VALUE skip the value token; then optional `AS VALUE` and `FORMAT VALUE`
suffixes whose keyword node receives the VALUE as its child; finally the
SHOWTERM is appended to `self`.  (In the Go code the suffix keyword node
is appended to the show term first and mutated afterwards; the resulting
tree is built here directly.) -/
def showTerm (fuel : Nat) (self node : ASTNode) (toks : List LexToken) :
    Except ParseErr (ASTNode × ASTNode × List LexToken) :=
  match fuel with
  | 0 => .error .outOfFuel
  | fuel + 1 =>
    match astNodeMap .TokenSHOWTERM with
    | none => .error (.unknownToken node.token) -- unreachable: SHOWTERM is in the table
    | some stProto =>
      let st := stProto.instance node.token
      match
        (if node.token.id = .TokenAT then
          match run fuel 0 node toks with
          | .error e => .error e
          | .ok (exp, node, toks) => Except.ok (st.appendChild exp, node, toks)
        else
          -- the source ignores the error of this skipToken call
          match skipToken [.TokenVALUE] node toks with
          | .error _ => Except.ok (st, node, toks)
          | .ok (node, toks) => Except.ok (st, node, toks)) with
      | .error e => .error e
      | .ok (st, node, toks) =>
        match
          (if node.token.id = .TokenAS then
            let asNode := node
            match nextNode toks with
            | .error _ => Except.ok (st, node, toks) -- source ignores this error
            | .ok (node, toks) =>
              match acceptChild asNode .TokenVALUE node toks with
              | .error e => .error e
              | .ok (asNode, node, toks) =>
                Except.ok (st.appendChild asNode, node, toks)
          else .ok (st, node, toks)) with
        | .error e => .error e
        | .ok (st, node, toks) =>
          match
            (if node.token.id = .TokenFORMAT then
              let fmtNode := node
              match nextNode toks with
              | .error _ => Except.ok (st, node, toks) -- source ignores this error
              | .ok (node, toks) =>
                match acceptChild fmtNode .TokenVALUE node toks with
                | .error e => .error e
                | .ok (fmtNode, node, toks) =>
                  Except.ok (st.appendChild fmtNode, node, toks)
            else .ok (st, node, toks)) with
          | .error e => .error e
          | .ok (st, node, toks) => .ok (self.appendChild st, node, toks)

termination_by structural fuel

/-- The `for skipToken(p, TokenCOMMA) == nil` loop of `ndShow`: further
comma-separated show terms. -/
def showCommaLoop (fuel : Nat) (self node : ASTNode)
    (toks : List LexToken) :
    Except ParseErr (ASTNode × ASTNode × List LexToken) :=
  match fuel with
  | 0 => .error .outOfFuel
  | fuel + 1 =>
    match skipToken [.TokenCOMMA] node toks with
    | .error _ => .ok (self, node, toks)
    | .ok (node, toks) =>
      match showTerm fuel self node toks with
      | .error e => .error e
      | .ok (self, node, toks) => showCommaLoop fuel self node toks

termination_by structural fuel
end

/-- `ParseWithRuntime` with a nil runtime provider, over an explicit token
list: read the first token, then run the main loop at right binding 0.
The fuel is an upper bound on the recursion depth; every recursive call
consumes at least one token or one loop step, so this bound is ample. -/
def ParseTokens (toks : List LexToken) : Except ParseErr ASTNode :=
  match nextNode toks with
  | .error e => .error e
  | .ok (node, rest) =>
    match run ((toks.length + 2) * 16) 0 node rest with
    | .error e => .error e
    | .ok (res, _, _) => .ok res

/-- Modelled from the spec: keyword classification of the lexer (`lexer.go`
is not part of the excerpt; spec §1 treats the token stream as an opaque
sequence).  Keywords are the operator and clause words of §4.6. -/
def keywordID : String → Option LexTokenID
  | "get" => some .TokenGET
  | "lookup" => some .TokenLOOKUP
  | "from" => some .TokenFROM
  | "where" => some .TokenWHERE
  | "group" => some .TokenGROUP
  | "traverse" => some .TokenTRAVERSE
  | "end" => some .TokenEND
  | "primary" => some .TokenPRIMARY
  | "show" => some .TokenSHOW
  | "with" => some .TokenWITH
  | "unique" => some .TokenUNIQUE
  | "uniquecount" => some .TokenUNIQUECOUNT
  | "isnotnull" => some .TokenISNOTNULL
  | "ascending" => some .TokenASCENDING
  | "descending" => some .TokenDESCENDING
  | "ordering" => some .TokenORDERING
  | "filtering" => some .TokenFILTERING
  | "nulltraversal" => some .TokenNULLTRAVERSAL
  | "and" => some .TokenAND
  | "or" => some .TokenOR
  | "not" => some .TokenNOT
  | "like" => some .TokenLIKE
  | "in" => some .TokenIN
  | "notin" => some .TokenNOTIN
  | "contains" => some .TokenCONTAINS
  | "containsnot" => some .TokenCONTAINSNOT
  | "beginswith" => some .TokenBEGINSWITH
  | "endswith" => some .TokenENDSWITH
  | "true" => some .TokenTRUE
  | "false" => some .TokenFALSE
  | "null" => some .TokenNULL
  | "as" => some .TokenAS
  | "format" => some .TokenFORMAT
  | _ => none

/-- A character that may appear in a bare word (identifier or number). -/
def isWordChar (c : Char) : Bool :=
  c.isAlphanum || c = '_' || c = '.' || c = ':'

/-- Build a token at character position `p` (line 1; column = position + 1
for the single-line inputs of this development). -/
def mkTok (id : LexTokenID) (v : String) (p : Nat) : LexToken :=
  ⟨id, p, v, 1, p + 1⟩

/-- Modelled from the spec: the lexer loop.  It produces the token stream
the parser consumes (spec §6): whitespace-separated words and symbols,
double-quoted strings as VALUE tokens with the quotes stripped, keywords
per `keywordID`, and — so that `get`/`lookup` queries parse as §4.6 and S2
require — a bare word directly following a GET or LOOKUP keyword is
classified NODEKIND; any other bare word is a VALUE.  The stream is
terminated by an EOF token (or a single error token).  `fuel` only bounds
recursion; every step consumes at least one character. -/
def lexLoop (fuel : Nat) (input : List Char) (pos : Nat)
    (kindKw : Bool) : List LexToken :=
  match fuel, input, pos, kindKw with
  | 0, _, _, _ => []
  | _ + 1, [], p, _ => [mkTok .TokenEOF "" p]
  | f + 1, '>' :: '=' :: cs, p, _ => mkTok .TokenGEQ ">=" p :: lexLoop f cs (p + 2) false
  | f + 1, '<' :: '=' :: cs, p, _ => mkTok .TokenLEQ "<=" p :: lexLoop f cs (p + 2) false
  | f + 1, '!' :: '=' :: cs, p, _ => mkTok .TokenNEQ "!=" p :: lexLoop f cs (p + 2) false
  | f + 1, '/' :: '/' :: cs, p, _ => mkTok .TokenDIVINT "//" p :: lexLoop f cs (p + 2) false
  | f + 1, c :: cs, p, afterKindKw =>
    if c = ' ' ∨ c = '\t' ∨ c = '\n' then lexLoop f cs (p + 1) afterKindKw
    else if c = '"' then
      let content := cs.takeWhile (· ≠ '"')
      match cs.drop content.length with
      | _ :: rest =>
        mkTok .TokenVALUE (String.mk content) p ::
          lexLoop f rest (p + content.length + 2) false
      | [] => [mkTok .TokenError (String.mk content) p]
    else if c = '=' then mkTok .TokenEQ "=" p :: lexLoop f cs (p + 1) false
    else if c = '>' then mkTok .TokenGT ">" p :: lexLoop f cs (p + 1) false
    else if c = '<' then mkTok .TokenLT "<" p :: lexLoop f cs (p + 1) false
    else if c = '+' then mkTok .TokenPLUS "+" p :: lexLoop f cs (p + 1) false
    else if c = '-' then mkTok .TokenMINUS "-" p :: lexLoop f cs (p + 1) false
    else if c = '*' then mkTok .TokenTIMES "*" p :: lexLoop f cs (p + 1) false
    else if c = '/' then mkTok .TokenDIV "/" p :: lexLoop f cs (p + 1) false
    else if c = '%' then mkTok .TokenMODINT "%" p :: lexLoop f cs (p + 1) false
    else if c = '(' then mkTok .TokenLPAREN "(" p :: lexLoop f cs (p + 1) false
    else if c = ')' then mkTok .TokenRPAREN ")" p :: lexLoop f cs (p + 1) false
    else if c = '[' then mkTok .TokenLBRACK "[" p :: lexLoop f cs (p + 1) false
    else if c = ']' then mkTok .TokenRBRACK "]" p :: lexLoop f cs (p + 1) false
    else if c = ',' then mkTok .TokenCOMMA "," p :: lexLoop f cs (p + 1) false
    else if c = '@' then mkTok .TokenAT "@" p :: lexLoop f cs (p + 1) false
    else if isWordChar c then
      let tail := cs.takeWhile isWordChar
      let w := String.mk (c :: tail)
      let rest := cs.drop tail.length
      match keywordID w with
      | some id =>
        mkTok id w p ::
          lexLoop f rest (p + w.length)
            (id = .TokenGET || id = .TokenLOOKUP)
      | none =>
        mkTok (if afterKindKw then .TokenNODEKIND else .TokenVALUE) w p ::
          lexLoop f rest (p + w.length) false
    else [mkTok .TokenError (String.mk [c]) p]
termination_by structural fuel

/-- Modelled from the spec: `Lex(name, input)` — tokenize the whole input. -/
def Lex (_nm input : String) : List LexToken :=
  lexLoop (input.length + 1) input.toList 0 false

/-- `Parse(name, input)` of the source: lex, then parse the token stream. -/
def Parse (nm input : String) : Except ParseErr ASTNode :=
  ParseTokens (Lex nm input)

/-- The structural content of an AST node: node name, token value and
children, recursively — exactly the data that the claims' tree notation
`(NAME "value" ...)` describes, and the data that survives the plain-form
round trip (token id, position, line, column, binding and denotations are
not part of it). -/
inductive STree where
  | mk (name : String) (val : String) (children : List STree)

/-- Project an AST node to its structural content. -/
def ASTNode.strip : ASTNode → STree
  | .mk nm t cs _ _ _ => .mk nm t.val (cs.attach.map fun c => c.1.strip)
decreasing_by
  have := List.sizeOf_lt_of_mem c.2
  simp only [ASTNode.mk.sizeOf_spec]
  omega

/-- A well-formed plain AST in the sense of the source's `ASTFromPlain`
doc comment and of the spec: a nested map with string `name` and `value`
entries and an optional `children` list of well-formed plain ASTs. -/
inductive PlainAST where
  | mk (name : String) (value : String) (children : Option (List PlainAST))

/-- `ASTNode.Plain` of the source: emit `{name, value}` and, only when the
node has children, a `children` list of the children's plain forms. -/
def ASTNode.plain : ASTNode → PlainAST
  | .mk nm t cs _ _ _ =>
    .mk nm t.val
      (if 0 < cs.length then some (cs.attach.map fun c => c.1.plain) else none)
decreasing_by
  have := List.sizeOf_lt_of_mem c.2
  simp only [ASTNode.mk.sizeOf_spec]
  omega

/-- `ASTFromPlain` of the source, on well-formed plain ASTs: mint a
synthetic token of class GENERAL carrying the value, convert the children
when the `children` entry is present, and leave binding and denotations
empty.  (The Go function can also fail, but only on maps without a `name`
or `value` entry, which well-formedness excludes.) -/
def ASTFromPlain : PlainAST → ASTNode
  | .mk nm v none => .mk nm ⟨.TokenGeneral, 0, v, 0, 0⟩ [] 0 none false
  | .mk nm v (some cs) =>
    .mk nm ⟨.TokenGeneral, 0, v, 0, 0⟩
      (cs.attach.map fun c => ASTFromPlain c.1) 0 none false
decreasing_by
  have := List.sizeOf_lt_of_mem c.2
  simp only [PlainAST.mk.sizeOf_spec, Option.some.sizeOf_spec]
  omega

/-- Whether every `children` entry present anywhere in a plain AST is a
non-empty list. -/
def PlainAST.noEmptyChildren : PlainAST → Bool
  | .mk _ _ none => true
  | .mk _ _ (some cs) =>
    !cs.isEmpty && cs.attach.all fun c => c.1.noEmptyChildren
decreasing_by
  have := List.sizeOf_lt_of_mem c.2
  simp only [PlainAST.mk.sizeOf_spec, Option.some.sizeOf_spec]
  omega

/-- Structural induction for `ASTNode` (children before parent). -/
theorem ASTNode.childInduction {P : ASTNode → Prop}
    (h : ∀ nm t cs b nd ld, (∀ c ∈ cs, P c) → P (.mk nm t cs b nd ld))
    (n : ASTNode) : P n :=
  match n with
  | .mk nm t cs b nd ld =>
    h nm t cs b nd ld (fun c hc => ASTNode.childInduction h c)
decreasing_by
  have := List.sizeOf_lt_of_mem hc
  simp only [ASTNode.mk.sizeOf_spec]
  omega

/-- Structural induction for `PlainAST` (children before parent). -/
theorem PlainAST.plainInduction {P : PlainAST → Prop}
    (h0 : ∀ nm v, P (.mk nm v none))
    (h1 : ∀ nm v cs, (∀ c ∈ cs, P c) → P (.mk nm v (some cs)))
    (m : PlainAST) : P m :=
  match m with
  | .mk nm v none => h0 nm v
  | .mk nm v (some cs) => h1 nm v cs (fun c hc => PlainAST.plainInduction h0 h1 c)
decreasing_by
  have := List.sizeOf_lt_of_mem hc
  simp only [PlainAST.mk.sizeOf_spec, Option.some.sizeOf_spec]
  omega

/-- Unfolding lemma for `ASTNode.strip` without `attach`. -/
theorem ASTNode.strip_def (nm : String) (t : LexToken) (cs : List ASTNode)
    (b : Int) (nd : Option NullDenot) (ld : Bool) :
    (ASTNode.mk nm t cs b nd ld).strip
      = .mk nm t.val (cs.map ASTNode.strip) := by
  rw [ASTNode.strip]
  congr 1
  exact List.attach_map_coe cs ASTNode.strip

/-- Unfolding lemma for `ASTNode.plain` without `attach`. -/
theorem ASTNode.plain_def (nm : String) (t : LexToken) (cs : List ASTNode)
    (b : Int) (nd : Option NullDenot) (ld : Bool) :
    (ASTNode.mk nm t cs b nd ld).plain
      = .mk nm t.val
          (if 0 < cs.length then some (cs.map ASTNode.plain) else none) := by
  rw [ASTNode.plain]
  congr 2
  exact congrArg some (List.attach_map_coe cs ASTNode.plain)

/-- Unfolding lemma for `ASTFromPlain` on a present children entry. -/
theorem ASTFromPlain_some_def (nm v : String) (cs : List PlainAST) :
    ASTFromPlain (.mk nm v (some cs))
      = .mk nm ⟨.TokenGeneral, 0, v, 0, 0⟩ (cs.map ASTFromPlain) 0 none
          false := by
  rw [ASTFromPlain]
  congr 1
  exact List.attach_map_coe cs ASTFromPlain

/-- `all` over an attached list agrees with `all` over the list. -/
theorem attach_all_eq {α : Type} (l : List α) (f : α → Bool) :
    (l.attach.all fun c => f c.1) = l.all f := by
  have h1 : ((l.attach.all fun c => f c.1) = true) ↔ (l.all f = true) := by
    simp only [List.all_eq_true]
    constructor
    · intro hx c hc
      exact hx ⟨c, hc⟩ (List.mem_attach _ _)
    · intro hx c _
      exact hx c.1 c.2
  cases hA : (l.attach.all fun c => f c.1) <;> cases hB : l.all f <;>
    simp_all

/-- Unfolding lemma for `PlainAST.noEmptyChildren` on a present children
entry. -/
theorem PlainAST.noEmptyChildren_some_def (nm v : String)
    (cs : List PlainAST) :
    (PlainAST.mk nm v (some cs)).noEmptyChildren
      = (!cs.isEmpty && cs.all PlainAST.noEmptyChildren) := by
  rw [PlainAST.noEmptyChildren]
  congr 1
  exact attach_all_eq cs PlainAST.noEmptyChildren

/-- Converting any AST node to plain form and back preserves its
structural content (name, token value, children, recursively). -/
theorem strip_astFromPlain_plain (n : ASTNode) :
    (ASTFromPlain n.plain).strip = n.strip := by
  induction n using ASTNode.childInduction with
  | h nm t cs b nd ld ih =>
    rw [ASTNode.plain_def, ASTNode.strip_def]
    by_cases hc : 0 < cs.length
    · rw [if_pos hc, ASTFromPlain_some_def, ASTNode.strip_def,
        List.map_map, List.map_map]
      congr 1
      exact List.map_congr_left fun c hcmem => ih c hcmem
    · have : cs = [] := List.length_eq_zero.mp (Nat.eq_zero_of_not_pos hc)
      subst this
      rw [if_neg hc]
      rw [ASTFromPlain, ASTNode.strip_def]

/-- On plain ASTs all of whose present `children` entries are non-empty,
`Plain` is a left inverse of `ASTFromPlain`. -/
theorem plain_astFromPlain (m : PlainAST) (h : m.noEmptyChildren = true) :
    (ASTFromPlain m).plain = m := by
  induction m using PlainAST.plainInduction with
  | h0 nm v =>
    rw [ASTFromPlain, ASTNode.plain_def]
    rfl
  | h1 nm v cs ih =>
    rw [PlainAST.noEmptyChildren_some_def, Bool.and_eq_true] at h
    obtain ⟨h1e, h2a⟩ := h
    have hall : ∀ c ∈ cs, c.noEmptyChildren = true :=
      List.all_eq_true.mp h2a
    have hlen : 0 < cs.length := by
      cases cs with
      | nil => simp at h1e
      | cons a l => simp
    rw [ASTFromPlain_some_def, ASTNode.plain_def, List.map_map,
      List.length_map, if_pos hlen]
    have hmap : cs.map (fun c => (ASTFromPlain c).plain) = cs.map id :=
      List.map_congr_left fun c hc => ih c hc (hall c hc)
    simp only [Function.comp_def]
    rw [hmap, List.map_id]

/-- Modelled from the spec: the page types of §3/§6 (the `view` package is
not part of the excerpt). -/
inductive PageType where
  | freePage | dataPage | freePhysicalSlotPage | freeLogicalSlotPage
  | translationPage
  deriving DecidableEq, Repr

/-- Modelled from the spec: the storage error surfaced by the claims —
`AlreadyInUse` (§7; `IOError` would model real disk failure, which the
embedding has no source of). -/
inductive StorageError where
  | alreadyInUse
  deriving DecidableEq, Repr

/-- Modelled from the spec: a `StorageFile` (§4.1, the `file` package is
not part of the excerpt) at the level of detail the claims need: how many
records exist (record 0 is the reserved root record, §6) and which record
ids are currently held by a caller. -/
structure StorageFile where
  numRecords : Nat
  inUse : List Nat
  deriving DecidableEq, Repr

/-- Modelled from the spec: `StorageFile.Get(id)` acquires the record for
exclusive use; while it is held, any further Get of the same id returns
`AlreadyInUse` (§4.1).  A record beyond the current end grows the file. -/
def StorageFile.get (sf : StorageFile) (id : Nat) :
    Except StorageError (Nat × StorageFile) :=
  if id ∈ sf.inUse then .error .alreadyInUse
  else .ok (id, { numRecords := max sf.numRecords (id + 1),
                  inUse := id :: sf.inUse })

/-- Modelled from the spec: `StorageFile.ReleaseInUse` releases a hold. -/
def StorageFile.releaseInUse (sf : StorageFile) (id : Nat) : StorageFile :=
  { sf with inUse := sf.inUse.erase id }

/-- Modelled from the spec: a `PagedStorageFile` (§4.3) — a reference to
one StorageFile plus, per page type, the list of record ids on that
type's page list, head first (insertion is always at the head, §4.3). -/
structure PagedStorageFile where
  sf : StorageFile
  lists : PageType → List Nat

/-- Modelled from the spec: a fresh PagedStorageFile over a fresh
StorageFile — only the root record exists, nothing is held, and all page
lists are empty. -/
def NewPagedStorageFile : PagedStorageFile :=
  { sf := { numRecords := 1, inUse := [] }, lists := fun _ => [] }

/-- Modelled from the spec: `AllocatePage(type)` pops a record from the
FREE_PAGE list, or grows the file by one record if that list is empty, and
inserts the page at the head of the `type` list (§4.3).  Returns the new
page's record id with the updated state. -/
def PagedStorageFile.allocatePage (psf : PagedStorageFile) (t : PageType) :
    Nat × PagedStorageFile :=
  match psf.lists .freePage with
  | id :: restFree =>
    (id, { sf := psf.sf,
           lists := fun u =>
             if u = t then id :: (if t = .freePage then restFree else psf.lists u)
             else if u = .freePage then restFree
             else psf.lists u })
  | [] =>
    let id := psf.sf.numRecords
    (id, { sf := { psf.sf with numRecords := id + 1 },
           lists := fun u => if u = t then id :: psf.lists u else psf.lists u })

/-- Modelled from the spec: the head-to-tail walk of `CountPages`,
counting pages and aborting with `AlreadyInUse` as soon as a page's record
is held by another caller (§4.3). -/
def countWalk (inUse : List Nat) : List Nat → Int → Int × Option StorageError
  | [], acc => (acc, none)
  | id :: rest, acc =>
    if id ∈ inUse then (-1, some .alreadyInUse) else countWalk inUse rest (acc + 1)

/-- Modelled from the spec: `CountPages(type)` walks the `type` list from
its head; the result is the page count, or `-1` together with
`AlreadyInUse` if any page along the walk is held (§4.3). -/
def PagedStorageFile.countPages (psf : PagedStorageFile) (t : PageType) :
    Int × Option StorageError :=
  countWalk psf.sf.inUse (psf.lists t) 0

/-- Modelled from the spec: `Close()` refuses to close while any record is
still held (§4.1/§4.3). -/
def PagedStorageFile.close (psf : PagedStorageFile) :
    Except StorageError Unit :=
  if psf.sf.inUse.isEmpty then .ok () else .error .alreadyInUse

/-- `i` successive `AllocatePage(DATA_PAGE)` calls on a fresh
PagedStorageFile, as in the loop of `TestFreePhysicalSlotManagerScale`. -/
def allocN : Nat → PagedStorageFile
  | 0 => NewPagedStorageFile
  | n + 1 => ((allocN n).allocatePage .dataPage).2

/-- Invariant of the allocation loop: nothing is held, the FREE_PAGE list
stays empty (the file always grows), the DATA_PAGE list has one entry per
allocation, and the file has grown by one record per allocation. -/
theorem allocN_spec (n : Nat) :
    (allocN n).sf.inUse = [] ∧ (allocN n).lists .freePage = []
      ∧ ((allocN n).lists .dataPage).length = n
      ∧ (allocN n).sf.numRecords = n + 1 := by
  induction n with
  | zero => exact ⟨rfl, rfl, rfl, rfl⟩
  | succ k ih =>
    obtain ⟨h1, h2, h3, h4⟩ := ih
    simp only [allocN, PagedStorageFile.allocatePage, h2]
    refine ⟨h1, ?_, ?_, by rw [h4]⟩
    · simp
    · simp [h3]

/-- A walk over records none of which is held counts the list length. -/
theorem countWalk_free (l : List Nat) (acc : Int) :
    countWalk [] l acc = (acc + l.length, none) := by
  induction l generalizing acc with
  | nil => simp [countWalk]
  | cons a rest ih =>
    simp only [countWalk, List.not_mem_nil, if_neg (List.not_mem_nil a)]
    rw [ih]
    simp only [Prod.mk.injEq, List.length_cons]
    push_cast
    ring_nf

/-- A walk that passes a held record reports `(-1, AlreadyInUse)`. -/
theorem countWalk_held (r : Nat) (l : List Nat) (acc : Int) (hr : r ∈ l) :
    countWalk [r] l acc = (-1, some .alreadyInUse) := by
  induction l generalizing acc with
  | nil => cases hr
  | cons a rest ih =>
    by_cases ha : a ∈ ([r] : List Nat)
    · have : a = r := by simpa using ha
      subst this
      simp [countWalk]
    · have har : a ≠ r := by simpa using ha
      have hr' : r ∈ rest := by
        cases List.mem_cons.mp hr with
        | inl h => exact absurd h.symm har
        | inr h => exact h
      simp only [countWalk, if_neg ha]
      exact ih _ hr'

/-- The binding power the token-to-prototype table assigns to a token id
(0 for ids without an entry). -/
def bindingOfId (t : LexTokenID) : Int :=
  ((astNodeMap t).map ASTProto.binding).getD 0

/-- The node name the token-to-prototype table assigns to a token id. -/
def nodeNameOf (t : LexTokenID) : String :=
  ((astNodeMap t).map ASTProto.name).getD ""

/-- The null denotation the token-to-prototype table assigns to a token
id. -/
def protoNdOf (t : LexTokenID) : Option NullDenot :=
  (astNodeMap t).bind ASTProto.nd

/-- The token ids whose prototypes carry the `ldInfix` left denotation. -/
def infixIds : List LexTokenID :=
  [.TokenOR, .TokenAND, .TokenGEQ, .TokenLEQ, .TokenNEQ, .TokenEQ,
   .TokenGT, .TokenLT, .TokenLIKE, .TokenIN, .TokenCONTAINS,
   .TokenBEGINSWITH, .TokenENDSWITH, .TokenCONTAINSNOT, .TokenNOTIN,
   .TokenPLUS, .TokenMINUS, .TokenTIMES, .TokenDIV, .TokenMODINT,
   .TokenDIVINT]

/-- The binding powers exactly as claim C7 states them: NOT 20, OR 30,
AND 40, the comparisons and set-predicates 60, PLUS/MINUS 110,
TIMES/DIV/MODINT/DIVINT 120, LPAREN/LBRACK 150, everything else 0. -/
def claimedBinding : LexTokenID → Int
  | .TokenNOT => 20
  | .TokenOR => 30
  | .TokenAND => 40
  | .TokenGEQ | .TokenLEQ | .TokenNEQ | .TokenEQ | .TokenGT | .TokenLT
  | .TokenLIKE | .TokenIN | .TokenCONTAINS | .TokenBEGINSWITH
  | .TokenENDSWITH | .TokenCONTAINSNOT | .TokenNOTIN => 60
  | .TokenPLUS | .TokenMINUS => 110
  | .TokenTIMES | .TokenDIV | .TokenMODINT | .TokenDIVINT => 120
  | .TokenLPAREN | .TokenLBRACK => 150
  | _ => 0

/-- The tokens claim C7 names explicitly. -/
def c7NamedTokens : List LexTokenID :=
  [.TokenNOT, .TokenOR, .TokenAND, .TokenGEQ, .TokenLEQ, .TokenNEQ,
   .TokenEQ, .TokenGT, .TokenLT, .TokenLIKE, .TokenIN, .TokenCONTAINS,
   .TokenBEGINSWITH, .TokenENDSWITH, .TokenCONTAINSNOT, .TokenNOTIN,
   .TokenPLUS, .TokenMINUS, .TokenTIMES, .TokenDIV, .TokenMODINT,
   .TokenDIVINT, .TokenLPAREN, .TokenLBRACK]

/-- Claim C1 as stated, as a decidable check on the parse result of
`get Song where name = "Aria1"`: the root is named GET, its first child is
named NODEKIND and carries token value "Song", its second child is named
WHERE and has exactly one child of shape (EQ (VALUE "name")
(VALUE "Aria1")) with the two EQ children in left-then-right order. -/
def c1ClaimCheck : Bool :=
  match Parse "demo" "get Song where name = \"Aria1\"" with
  | .ok (.mk rn _
      (.mk n1 t1 _ _ _ _ ::
       .mk n2 _
         [.mk ne _
            [.mk na ta _ _ _ _, .mk nb tb _ _ _ _] _ _ _] _ _ _ :: _)
      _ _ _) =>
    rn == NodeGET && n1 == "NODEKIND" && t1.val == "Song" && n2 == NodeWHERE
      && ne == NodeEQ && na == NodeVALUE && ta.val == "name"
      && nb == NodeVALUE && tb.val == "Aria1"
  | _ => false

/-- C1 (counterexample): the claim as stated is false — the first child of
the GET root produced by `Parse("demo", "get Song where name = \"Aria1\"")`
is not named NODEKIND (the table maps `TokenNODEKIND` to a prototype named
`NodeVALUE`, the same name constant used for `TokenVALUE`), so the check
encoding the claim evaluates to false. -/
theorem c1_nodekind_counterexample : c1ClaimCheck = false := rfl

/-- C1 (amended): `Parse("demo", "get Song where name = \"Aria1\"")`
succeeds and returns a root ASTNode named GET whose first child is a node
named VALUE carrying token value "Song" (instantiated from the NODEKIND
token), and whose second child is a node named WHERE with exactly one
child of shape (EQ (VALUE "name") (VALUE "Aria1")), where EQ has exactly
two children in left-then-right order. -/
theorem c1_s2_parse_amended :
    Parse "demo" "get Song where name = \"Aria1\""
      = .ok (ASTNode.mk NodeGET (mkTok .TokenGET "get" 0)
          [ASTNode.mk NodeVALUE (mkTok .TokenNODEKIND "Song" 4) [] 0
             (some .term) false,
           ASTNode.mk NodeWHERE (mkTok .TokenWHERE "where" 9)
             [ASTNode.mk NodeEQ (mkTok .TokenEQ "=" 20)
                [ASTNode.mk NodeVALUE (mkTok .TokenVALUE "name" 15) [] 0
                   (some .term) false,
                 ASTNode.mk NodeVALUE (mkTok .TokenVALUE "Aria1" 22) [] 0
                   (some .term) false]
                60 none true]
             0 (some .prefixOp) false]
          0 (some .get) false) := rfl

/-- C2: every AST node `n` produced by a successful Parse survives the
plain-form round trip: `ASTFromPlain (Plain n)` has the same node name,
the same token value and the same children recursively as `n` (token line
and column — along with token id, position, binding and denotations — are
not round-tripped, which `ASTNode.strip` quotients out). -/
theorem c2_plain_roundtrip (nm input : String) (n : ASTNode)
    (_h : Parse nm input = .ok n) :
    (ASTFromPlain n.plain).strip = n.strip :=
  strip_astFromPlain_plain n

/-- C2 witness: the round trip at the result of `Parse("demo", "1")`. -/
theorem c2_plain_roundtrip_witness :
    (ASTFromPlain (ASTNode.mk NodeVALUE (mkTok .TokenVALUE "1" 0) [] 0
        (some .term) false).plain).strip
      = (ASTNode.mk NodeVALUE (mkTok .TokenVALUE "1" 0) [] 0
          (some .term) false).strip :=
  c2_plain_roundtrip "demo" "1" _ rfl

/-- C3 (counterexample): the round-trip law `Plain(ASTFromPlain(m)) = m`
fails on the well-formed plain AST `{name := "a", value := "b",
children := []}` — `ASTFromPlain` accepts the empty children list, but
`Plain` emits a `children` entry only when the node has children, so the
round trip drops the entry. -/
theorem c3_empty_children_counterexample :
    (ASTFromPlain (PlainAST.mk "a" "b" (some []))).plain
      ≠ PlainAST.mk "a" "b" (some []) := by
  rw [ASTFromPlain_some_def, ASTNode.plain_def]
  simp

/-- C3 (amended): for every well-formed plain AST `m` whose `children`
entries, wherever present, are non-empty lists, `Plain(ASTFromPlain(m))`
equals `m` as a map structure. -/
theorem c3_plain_of_astFromPlain_amended (m : PlainAST)
    (h : m.noEmptyChildren = true) : (ASTFromPlain m).plain = m :=
  plain_astFromPlain m h

/-- C3 witness: the amended round trip at a concrete two-level plain
AST. -/
theorem c3_plain_of_astFromPlain_amended_witness :
    (ASTFromPlain (PlainAST.mk "a" "b"
        (some [PlainAST.mk "c" "d" none]))).plain
      = PlainAST.mk "a" "b" (some [PlainAST.mk "c" "d" none]) :=
  c3_plain_of_astFromPlain_amended _ (by
    rw [PlainAST.noEmptyChildren_some_def]
    simp [List.all_cons, PlainAST.noEmptyChildren])

/-- C4: `Parse("demo", "1 + 2 * 3")` yields
(PLUS (VALUE "1") (TIMES (VALUE "2") (VALUE "3"))), and
`Parse("demo", "(1 + 2) * 3")` yields
(TIMES (PLUS (VALUE "1") (VALUE "2")) (VALUE "3")); the second tree
contains no node for the parenthesis tokens. -/
theorem c4_precedence :
    Parse "demo" "1 + 2 * 3"
      = .ok (ASTNode.mk NodePLUS (mkTok .TokenPLUS "+" 2)
          [ASTNode.mk NodeVALUE (mkTok .TokenVALUE "1" 0) [] 0
             (some .term) false,
           ASTNode.mk NodeTIMES (mkTok .TokenTIMES "*" 6)
             [ASTNode.mk NodeVALUE (mkTok .TokenVALUE "2" 4) [] 0
                (some .term) false,
              ASTNode.mk NodeVALUE (mkTok .TokenVALUE "3" 8) [] 0
                (some .term) false]
             120 none true]
          110 (some .prefixOp) true)
    ∧ Parse "demo" "(1 + 2) * 3"
      = .ok (ASTNode.mk NodeTIMES (mkTok .TokenTIMES "*" 8)
          [ASTNode.mk NodePLUS (mkTok .TokenPLUS "+" 3)
             [ASTNode.mk NodeVALUE (mkTok .TokenVALUE "1" 1) [] 0
                (some .term) false,
              ASTNode.mk NodeVALUE (mkTok .TokenVALUE "2" 5) [] 0
                (some .term) false]
             110 (some .prefixOp) true,
           ASTNode.mk NodeVALUE (mkTok .TokenVALUE "3" 10) [] 0
             (some .term) false]
          120 none true) :=
  ⟨rfl, rfl⟩

/-- C6: `Parse("demo", "get")` fails with UnexpectedEnd,
`Parse("demo", "1 +")` fails with UnexpectedEnd, and
`Parse("demo", "+ 1")` succeeds as a PLUS node with exactly one child
(VALUE "1") — PLUS acting as a prefix operator. -/
theorem c6_error_cases :
    (Parse "demo" "get").mapError ParseErr.kind = .error .unexpectedEnd
    ∧ (Parse "demo" "1 +").mapError ParseErr.kind = .error .unexpectedEnd
    ∧ Parse "demo" "+ 1"
        = .ok (ASTNode.mk NodePLUS (mkTok .TokenPLUS "+" 0)
            [ASTNode.mk NodeVALUE (mkTok .TokenVALUE "1" 2) [] 0
               (some .term) false]
            110 (some .prefixOp) true) :=
  ⟨rfl, rfl, rfl⟩

/-- C7: the token-to-prototype table assigns exactly the claimed binding
powers — every entry's binding equals `claimedBinding` of its token id
(in particular 0 for every token not named by the claim), and every token
the claim names does have an entry in the table. -/
theorem c7_binding_powers :
    (∀ t : LexTokenID,
        ((astNodeMap t).all fun p => p.binding == claimedBinding t) = true)
    ∧ (c7NamedTokens.all fun t => (astNodeMap t).isSome) = true := by
  refine ⟨fun t => ?_, rfl⟩
  cases t <;> rfl

/-- C8: in the main parse loop, a start-of-expression node without a null
denotation makes `run` fail with ImpossibleNullDenotation naming that
node's token (once the mandatory advance past it succeeds), and — in the
left-denotation loop, entered because the current token's binding exceeds
`rb` — an operator node without a left denotation makes the loop fail with
ImpossibleLeftDenotation naming that node's token; in both cases an error
is returned instead of any partial AST.  Concretely, `Parse("demo", ",")`
fails with ImpossibleNullDenotation naming the COMMA token and
`Parse("demo", "1 not 2")` fails with ImpossibleLeftDenotation naming the
NOT token. -/
theorem c8_denotation_errors :
    (∀ (fuel : Nat) (rb : Int) (cur : ASTNode) (toks : List LexToken)
        (nd1 : ASTNode) (rest : List LexToken),
        cur.ndTag = none → nextNode toks = .ok (nd1, rest) →
        run (fuel + 1) rb cur toks
          = .error (.impossibleNullDenot cur.token))
    ∧ (∀ (fuel : Nat) (rb : Int) (left node : ASTNode)
        (toks : List LexToken) (nd1 : ASTNode) (rest : List LexToken),
        rb < node.binding → node.ldTag = false →
        nextNode toks = .ok (nd1, rest) →
        runLeft (fuel + 1) rb left node toks
          = .error (.impossibleLeftDenot node.token))
    ∧ Parse "demo" ","
        = .error (.impossibleNullDenot (mkTok .TokenCOMMA "," 0))
    ∧ Parse "demo" "1 not 2"
        = .error (.impossibleLeftDenot (mkTok .TokenNOT "not" 2)) := by
  refine ⟨?_, ?_, rfl, rfl⟩
  · intro fuel rb cur toks nd1 rest hnd hnext
    rw [run, hnext, hnd]
  · intro fuel rb left node toks nd1 rest hb hld hnext
    rw [runLeft, if_pos hb, hnext, hld]
    rfl

/-- C10: when `skipToken` must skip a token that is not there, it reports
UnexpectedEnd when the current token is EOF and UnexpectedToken when a
non-EOF token of the wrong kind is present.  Concretely,
`Parse("demo", "(1")` — where the required closing RPAREN is missing
because the input ended — fails with UnexpectedEnd, not UnexpectedToken,
while `Parse("demo", "(1 5")` — where a wrong non-EOF token sits in the
RPAREN's place — fails with UnexpectedToken. -/
theorem c10_skip_token_eof :
    (∀ (ids : List LexTokenID) (node : ASTNode) (toks : List LexToken),
        node.token.id ∉ ids → node.token.id = .TokenEOF →
        skipToken ids node toks = .error (.unexpectedEnd node.token))
    ∧ (∀ (ids : List LexTokenID) (node : ASTNode) (toks : List LexToken),
        node.token.id ∉ ids → node.token.id ≠ .TokenEOF →
        skipToken ids node toks = .error (.unexpectedToken node.token))
    ∧ (Parse "demo" "(1").mapError ParseErr.kind = .error .unexpectedEnd
    ∧ (Parse "demo" "(1 5").mapError ParseErr.kind
        = .error .unexpectedToken := by
  refine ⟨?_, ?_, rfl, rfl⟩
  · intro ids node toks hni heof
    rw [skipToken, if_neg hni, if_pos heof]
  · intro ids node toks hni heof
    rw [skipToken, if_neg hni, if_neg heof]

/-- C8 witness: the null-denotation part at a COMMA node (no null
denotation) and the left-denotation part at a NOT node (binding 20, no
left denotation), each before a remaining EOF token. -/
theorem c8_denotation_errors_witness :
    run 1 0 (ASTNode.mk NodeCOMMA (mkTok .TokenCOMMA "," 0) [] 0 none
        false) [mkTok .TokenEOF "" 1]
      = .error (.impossibleNullDenot (mkTok .TokenCOMMA "," 0))
    ∧ runLeft 1 0
        (ASTNode.mk NodeVALUE (mkTok .TokenVALUE "1" 0) [] 0 (some .term)
          false)
        (ASTNode.mk NodeNOT (mkTok .TokenNOT "not" 2) [] 20
          (some .prefixOp) false)
        [mkTok .TokenEOF "" 5]
      = .error (.impossibleLeftDenot (mkTok .TokenNOT "not" 2)) :=
  ⟨c8_denotation_errors.1 0 0 _ _ _ _ rfl rfl,
   c8_denotation_errors.2.1 0 0 _ _ _ _ _ (by decide) rfl rfl⟩

/-- C10 witness: `skipToken` over a required RPAREN at an EOF node reports
UnexpectedEnd, and at a wrong non-EOF node reports UnexpectedToken. -/
theorem c10_skip_token_eof_witness :
    skipToken [.TokenRPAREN]
        (ASTNode.mk NodeEOF (mkTok .TokenEOF "" 2) [] 0 (some .term)
          false) []
      = .error (.unexpectedEnd (mkTok .TokenEOF "" 2))
    ∧ skipToken [.TokenRPAREN]
        (ASTNode.mk NodeVALUE (mkTok .TokenVALUE "5" 3) [] 0 (some .term)
          false) []
      = .error (.unexpectedToken (mkTok .TokenVALUE "5" 3)) :=
  ⟨c10_skip_token_eof.1 _ _ _ (by decide) rfl,
   c10_skip_token_eof.2.1 _ _ _ (by decide) (by decide)⟩

/-- C9: on a fresh PagedStorageFile, after `i` DATA_PAGE allocations
`CountPages(DATA_PAGE)` returns `i`; while any record on the DATA_PAGE
list walk is held via `StorageFile.Get`, `CountPages(DATA_PAGE)` returns
`-1` together with AlreadyInUse; and once the hold is released, `Close()`
succeeds. -/
theorem c9_count_pages :
    (∀ i : Nat, (allocN i).countPages .dataPage = ((i : Int), none))
    ∧ (∀ (i r : Nat), r ∈ (allocN i).lists .dataPage →
        ∃ sf2 : StorageFile,
          (allocN i).sf.get r = .ok (r, sf2)
          ∧ (PagedStorageFile.mk sf2 ((allocN i).lists)).countPages
              .dataPage = (-1, some .alreadyInUse)
          ∧ (PagedStorageFile.mk (sf2.releaseInUse r)
              ((allocN i).lists)).close = .ok ()) := by
  constructor
  · intro i
    obtain ⟨h1, _, h3, _⟩ := allocN_spec i
    rw [PagedStorageFile.countPages, h1, countWalk_free, h3]
    simp
  · intro i r hr
    obtain ⟨h1, _, _, _⟩ := allocN_spec i
    refine ⟨{ numRecords := max (allocN i).sf.numRecords (r + 1),
              inUse := [r] }, ?_, ?_, ?_⟩
    · rw [StorageFile.get, h1]
      simp
    · rw [PagedStorageFile.countPages]
      exact countWalk_held r _ 0 hr
    · rw [StorageFile.releaseInUse]
      simp [PagedStorageFile.close]

/-- C9 witness: after five allocations, record 1 is on the DATA_PAGE
walk; acquiring it makes CountPages report (-1, AlreadyInUse), and after
release Close succeeds. -/
theorem c9_count_pages_witness :
    ∃ sf2 : StorageFile,
      (allocN 5).sf.get 1 = .ok (1, sf2)
      ∧ (PagedStorageFile.mk sf2 ((allocN 5).lists)).countPages .dataPage
          = (-1, some .alreadyInUse)
      ∧ (PagedStorageFile.mk (sf2.releaseInUse 1)
          ((allocN 5).lists)).close = .ok () :=
  c9_count_pages.2 5 1 (by decide)

set_option maxHeartbeats 2000000 in
/-- C5: infix operators of equal binding power are left-associative.  For
any two operator tokens whose prototypes carry the `ldInfix` left
denotation and have the same binding power, and any three VALUE operand
tokens, parsing `a op1 b op2 c` yields the left-nested tree — the second
operator at the root with the first operator's node as its left child —
because `ldInfix` parses its right operand at the operator's own binding.
Concretely, `Parse("demo", "a and b and c")` yields
(AND (AND (VALUE "a") (VALUE "b")) (VALUE "c")). -/
theorem c5_left_assoc :
    (∀ (o1 o2 : LexTokenID) (a b c op1 op2 te : LexToken),
        o1 ∈ infixIds → o2 ∈ infixIds →
        bindingOfId o1 = bindingOfId o2 →
        a.id = .TokenVALUE → b.id = .TokenVALUE → c.id = .TokenVALUE →
        op1.id = o1 → op2.id = o2 → te.id = .TokenEOF →
        ParseTokens [a, op1, b, op2, c, te]
          = .ok (ASTNode.mk (nodeNameOf o2) op2
              [ASTNode.mk (nodeNameOf o1) op1
                 [ASTNode.mk NodeVALUE a [] 0 (some .term) false,
                  ASTNode.mk NodeVALUE b [] 0 (some .term) false]
                 (bindingOfId o1) (protoNdOf o1) true,
               ASTNode.mk NodeVALUE c [] 0 (some .term) false]
              (bindingOfId o2) (protoNdOf o2) true))
    ∧ Parse "demo" "a and b and c"
        = .ok (ASTNode.mk NodeAND (mkTok .TokenAND "and" 8)
            [ASTNode.mk NodeAND (mkTok .TokenAND "and" 2)
               [ASTNode.mk NodeVALUE (mkTok .TokenVALUE "a" 0) [] 0
                  (some .term) false,
                ASTNode.mk NodeVALUE (mkTok .TokenVALUE "b" 6) [] 0
                  (some .term) false]
               40 none true,
             ASTNode.mk NodeVALUE (mkTok .TokenVALUE "c" 12) [] 0
               (some .term) false]
            40 none true) := by
  constructor
  · intro o1 o2 a b c op1 op2 te h1 h2 hb ha hbv hcv ho1 ho2 hte
    obtain ⟨aid, ap, av, al, ac⟩ := a
    obtain ⟨bid, bp, bv, bl, bc⟩ := b
    obtain ⟨cid, cp, cv, cl, cc⟩ := c
    obtain ⟨o1id, o1p, o1v, o1l, o1c⟩ := op1
    obtain ⟨o2id, o2p, o2v, o2l, o2c⟩ := op2
    obtain ⟨tid, tp, tv, tl, tc⟩ := te
    obtain rfl : aid = .TokenVALUE := ha
    obtain rfl : bid = .TokenVALUE := hbv
    obtain rfl : cid = .TokenVALUE := hcv
    obtain rfl : o1id = o1 := ho1
    obtain rfl : o2id = o2 := ho2
    obtain rfl : tid = .TokenEOF := hte
    fin_cases h1 <;> fin_cases h2 <;>
      first
        | exact absurd hb (by decide)
        | rfl
  · rfl

/-- C5 witness: the token-level left-associativity statement at two AND
operators and the operands of S4. -/
theorem c5_left_assoc_witness :
    ParseTokens [mkTok .TokenVALUE "a" 0, mkTok .TokenAND "and" 2,
        mkTok .TokenVALUE "b" 6, mkTok .TokenAND "and" 8,
        mkTok .TokenVALUE "c" 12, mkTok .TokenEOF "" 13]
      = .ok (ASTNode.mk (nodeNameOf .TokenAND) (mkTok .TokenAND "and" 8)
          [ASTNode.mk (nodeNameOf .TokenAND) (mkTok .TokenAND "and" 2)
             [ASTNode.mk NodeVALUE (mkTok .TokenVALUE "a" 0) [] 0
                (some .term) false,
              ASTNode.mk NodeVALUE (mkTok .TokenVALUE "b" 6) [] 0
                (some .term) false]
             (bindingOfId .TokenAND) (protoNdOf .TokenAND) true,
           ASTNode.mk NodeVALUE (mkTok .TokenVALUE "c" 12) [] 0
             (some .term) false]
          (bindingOfId .TokenAND) (protoNdOf .TokenAND) true) :=
  c5_left_assoc.1 .TokenAND .TokenAND _ _ _ _ _ _ (by decide) (by decide)
    rfl rfl rfl rfl rfl rfl rfl

end EliasDB
